import Mathlib

/-!
Verification of the Threshold Evaluation & Adherence Tracking Engine of the
TMJ digital-therapeutics repository.

The data model is embedded from the TypeScript types in
`doctor-portal/frontend/src/App.tsx` (`MovementThreshold`, `ExerciseStep`,
`Exercise`) and from the progress events consumed by `PatientProgress`
(App.tsx) and `fetchPrescriptions` (`patient-app/lib/main.dart`).  The FastAPI
backend `doctor-portal/backend/main.py` referenced by the repository README
(deviation evaluation, threshold validation, adherence aggregation with a
repetition target, and the `/ai/coach` payload assembler) is not part of the
source tree, so those operations are modelled from the specification; each
such definition carries a doc comment starting with `Modelled from the spec:`.

Numbers are modelled as rationals (`ℚ`); JavaScript numbers that may be
non-finite (NaN / ±Infinity) appear only in threshold validation and are
modelled by `JsNum`.
-/

/-- Comparator of a `MovementThreshold` in App.tsx: the closed three-value
string union `">=" | "<=" | "between"`, written `gte` / `lte` / `between` as
in the specification. -/
inductive Comparator where
  | gte
  | lte
  | between
deriving DecidableEq, Repr

/-- The `MovementThreshold` type of App.tsx (lines 4-11): one measurable
pass/fail rule.  `secondary_value` is the optional upper bound, used only by
the `between` comparator. -/
structure MovementThreshold where
  metric : String
  comparator : Comparator
  value : ℚ
  secondary_value : Option ℚ
  unit : String
  coaching_prompt : String
deriving DecidableEq, Repr

/-- One incoming measurement, as in the batch POSTed by the patient app
(docs/threshold_guidance.md, Runtime Evaluation step 1). -/
structure MetricSample where
  metric : String
  actual_value : ℚ
  unit : String
deriving DecidableEq, Repr

/-- Result of evaluating one sample against (at most) one threshold.
`target` is the effective threshold value (`none` for an informational sample
with no matching threshold); `coaching_prompt` is copied from the matching
threshold (`none` when there is none). -/
structure DeviationRecord where
  metric : String
  target : Option ℚ
  actual : ℚ
  passed : Bool
  coaching_prompt : Option String
  delta : ℚ
deriving DecidableEq, Repr

/-- Modelled from the spec: the Deviation Evaluator (spec §4.2) lives in the
FastAPI backend `doctor-portal/backend/main.py`, which is not under the
source tree.  Rules: `gte` passes iff `actual_value >= value` with
`delta = value - actual_value`; `lte` passes iff `actual_value <= value` with
`delta = actual_value - value`; `between` passes iff
`value <= actual_value <= secondary_value`, with `delta = 0` when passed and
otherwise the signed distance to the nearest bound.  A `between` threshold is
required by validation (spec §4.1) to carry a `secondary_value`; when it is
absent the model degenerates to the point interval `[value, value]`. -/
def evalDeviation (th : MovementThreshold) (s : MetricSample) : DeviationRecord :=
  match th.comparator with
  | .gte =>
      { metric := s.metric
        target := some th.value
        actual := s.actual_value
        passed := decide (s.actual_value ≥ th.value)
        coaching_prompt := some th.coaching_prompt
        delta := th.value - s.actual_value }
  | .lte =>
      { metric := s.metric
        target := some th.value
        actual := s.actual_value
        passed := decide (s.actual_value ≤ th.value)
        coaching_prompt := some th.coaching_prompt
        delta := s.actual_value - th.value }
  | .between =>
      let hi := th.secondary_value.getD th.value
      let ok := decide (th.value ≤ s.actual_value) && decide (s.actual_value ≤ hi)
      { metric := s.metric
        target := some th.value
        actual := s.actual_value
        passed := ok
        coaching_prompt := some th.coaching_prompt
        delta :=
          if ok then 0
          else if s.actual_value < th.value then s.actual_value - th.value
          else s.actual_value - hi }

/-- The `gte` example threshold of spec §8. -/
def gteExampleThreshold : MovementThreshold :=
  { metric := "neck_rotation_left"
    comparator := .gte
    value := 60
    secondary_value := none
    unit := "deg"
    coaching_prompt := "Turn further left" }

/-- The `gte` example sample of spec §8 (`actual_value = 48.2`). -/
def gteExampleSample : MetricSample :=
  { metric := "neck_rotation_left", actual_value := 48.2, unit := "deg" }

/-- The `between` example threshold of spec §8 (bounds 20..40). -/
def betweenExampleThreshold : MovementThreshold :=
  { metric := "jaw_opening"
    comparator := .between
    value := 20
    secondary_value := some 40
    unit := "mm"
    coaching_prompt := "Open within the target range" }

/-- The `between` example sample of spec §8 (`actual_value = 45`). -/
def betweenExampleSample : MetricSample :=
  { metric := "jaw_opening", actual_value := 45, unit := "mm" }

lemma evalDeviation_gte (th : MovementThreshold) (s : MetricSample)
    (hc : th.comparator = Comparator.gte) :
    evalDeviation th s =
      { metric := s.metric
        target := some th.value
        actual := s.actual_value
        passed := decide (s.actual_value ≥ th.value)
        coaching_prompt := some th.coaching_prompt
        delta := th.value - s.actual_value } := by
  unfold evalDeviation
  rw [hc]

lemma evalDeviation_between (th : MovementThreshold) (s : MetricSample)
    (hc : th.comparator = Comparator.between) :
    evalDeviation th s =
      { metric := s.metric
        target := some th.value
        actual := s.actual_value
        passed := decide (th.value ≤ s.actual_value) &&
          decide (s.actual_value ≤ th.secondary_value.getD th.value)
        coaching_prompt := some th.coaching_prompt
        delta :=
          if decide (th.value ≤ s.actual_value) &&
              decide (s.actual_value ≤ th.secondary_value.getD th.value) then 0
          else if s.actual_value < th.value then s.actual_value - th.value
          else s.actual_value - th.secondary_value.getD th.value } := by
  unfold evalDeviation
  rw [hc]

/-- C1: for every `gte` threshold and matched sample, the evaluation passes
iff `actual_value ≥ value` (boundary inclusive), `delta = value -
actual_value`, `delta` is positive exactly when the sample fails and `≤ 0`
exactly when it passes; on the spec example (value 60, actual 48.2) the
record fails with `delta = 11.8` and carries the threshold's coaching
prompt. -/
theorem gte_evaluation_correct :
    (∀ (th : MovementThreshold) (s : MetricSample),
      th.comparator = Comparator.gte →
        ((evalDeviation th s).passed = true ↔ s.actual_value ≥ th.value)
        ∧ (evalDeviation th s).delta = th.value - s.actual_value
        ∧ (0 < (evalDeviation th s).delta ↔ (evalDeviation th s).passed = false)
        ∧ ((evalDeviation th s).delta ≤ 0 ↔ (evalDeviation th s).passed = true))
    ∧ (evalDeviation gteExampleThreshold gteExampleSample).passed = false
    ∧ (evalDeviation gteExampleThreshold gteExampleSample).delta = 11.8
    ∧ (evalDeviation gteExampleThreshold gteExampleSample).coaching_prompt =
        some "Turn further left" := by
  refine ⟨fun th s hc => ?_, ?_, ?_, ?_⟩
  · rw [evalDeviation_gte th s hc]
    refine ⟨by simp, rfl, ?_, ?_⟩
    · simp [sub_pos, ge_iff_le, ← not_le]
    · simp [sub_nonpos, ge_iff_le]
  · rw [evalDeviation_gte _ _ rfl]
    norm_num [gteExampleThreshold, gteExampleSample]
  · rw [evalDeviation_gte _ _ rfl]
    norm_num [gteExampleThreshold, gteExampleSample]
  · rw [evalDeviation_gte _ _ rfl]
    rfl

/-- Witness for C1: the theorem applied to the spec example threshold and
sample. -/
theorem gte_evaluation_correct_witness :
    (evalDeviation gteExampleThreshold gteExampleSample).passed = true ↔
      gteExampleSample.actual_value ≥ gteExampleThreshold.value :=
  (gte_evaluation_correct.1 gteExampleThreshold gteExampleSample rfl).1

lemma evalDeviation_between_passed (th : MovementThreshold) (s : MetricSample)
    (sv : ℚ) (hc : th.comparator = Comparator.between)
    (hsv : th.secondary_value = some sv) :
    (evalDeviation th s).passed =
      (decide (th.value ≤ s.actual_value) && decide (s.actual_value ≤ sv)) := by
  rw [evalDeviation_between th s hc, hsv]
  rfl

lemma evalDeviation_between_delta (th : MovementThreshold) (s : MetricSample)
    (sv : ℚ) (hc : th.comparator = Comparator.between)
    (hsv : th.secondary_value = some sv) :
    (evalDeviation th s).delta =
      if decide (th.value ≤ s.actual_value) && decide (s.actual_value ≤ sv) then 0
      else if s.actual_value < th.value then s.actual_value - th.value
      else s.actual_value - sv := by
  rw [evalDeviation_between th s hc, hsv]
  rfl

/-- C2: for every `between` threshold with both bounds and matched sample,
the evaluation passes iff `value ≤ actual_value ≤ secondary_value` (both
bounds inclusive), `delta = 0` when passed, `delta` is negative and equals
`actual_value - value` when the sample is below the lower bound, positive
and equal to `actual_value - secondary_value` when above the upper bound;
on the spec example (bounds 20..40, actual 45) the record fails with
`delta = 5`. -/
theorem between_evaluation_correct :
    (∀ (th : MovementThreshold) (s : MetricSample) (sv : ℚ),
      th.comparator = Comparator.between →
      th.secondary_value = some sv →
      th.value ≤ sv →
        ((evalDeviation th s).passed = true ↔
          th.value ≤ s.actual_value ∧ s.actual_value ≤ sv)
        ∧ ((evalDeviation th s).passed = true → (evalDeviation th s).delta = 0)
        ∧ (s.actual_value < th.value →
            (evalDeviation th s).delta = s.actual_value - th.value
            ∧ (evalDeviation th s).delta < 0)
        ∧ (sv < s.actual_value →
            (evalDeviation th s).delta = s.actual_value - sv
            ∧ 0 < (evalDeviation th s).delta))
    ∧ (evalDeviation betweenExampleThreshold betweenExampleSample).passed = false
    ∧ (evalDeviation betweenExampleThreshold betweenExampleSample).delta = 5 := by
  refine ⟨fun th s sv hc hsv hord => ?_, ?_, ?_⟩
  · rw [evalDeviation_between_passed th s sv hc hsv,
      evalDeviation_between_delta th s sv hc hsv]
    refine ⟨by simp, ?_, ?_, ?_⟩
    · intro hp
      rw [if_pos hp]
    · intro hlt
      have h1 : ¬ th.value ≤ s.actual_value := not_le.mpr hlt
      have hcond : ¬ (decide (th.value ≤ s.actual_value) &&
          decide (s.actual_value ≤ sv)) = true := by simp [h1]
      rw [if_neg hcond, if_pos hlt]
      exact ⟨rfl, by linarith⟩
    · intro hgt
      have h2 : ¬ s.actual_value ≤ sv := not_le.mpr hgt
      have h3 : ¬ s.actual_value < th.value :=
        fun hlt => lt_irrefl _ (lt_trans (lt_of_lt_of_le hlt hord) hgt)
      have hcond : ¬ (decide (th.value ≤ s.actual_value) &&
          decide (s.actual_value ≤ sv)) = true := by simp [h2]
      rw [if_neg hcond, if_neg h3]
      exact ⟨rfl, by linarith⟩
  · rw [evalDeviation_between_passed _ _ 40 rfl rfl]
    norm_num [betweenExampleThreshold, betweenExampleSample]
  · rw [evalDeviation_between_delta _ _ 40 rfl rfl]
    norm_num [betweenExampleThreshold, betweenExampleSample]

/-- Witness for C2: the theorem applied to the spec example threshold and
sample. -/
theorem between_evaluation_correct_witness :
    (evalDeviation betweenExampleThreshold betweenExampleSample).passed = true ↔
      betweenExampleThreshold.value ≤ betweenExampleSample.actual_value ∧
        betweenExampleSample.actual_value ≤ 40 :=
  (between_evaluation_correct.1 betweenExampleThreshold betweenExampleSample
    40 rfl rfl (by decide)).1

/-- Modelled from the spec: threshold lookup for a submitted metric (spec
§4.2) — exact-name match against the step's threshold list, performed by the
missing backend `doctor-portal/backend/main.py`. -/
def findThreshold (ths : List MovementThreshold) (metric : String) :
    Option MovementThreshold :=
  ths.find? (fun th => th.metric == metric)

/-- Modelled from the spec: scoring of one sample (spec §4.2) by the missing
backend.  A sample whose metric has no threshold is recorded as informational
only: `passed = true` by convention, `coaching_prompt = none`. -/
def scoreSample (ths : List MovementThreshold) (s : MetricSample) :
    DeviationRecord :=
  match findThreshold ths s.metric with
  | some th => evalDeviation th s
  | none =>
      { metric := s.metric
        target := none
        actual := s.actual_value
        passed := true
        coaching_prompt := none
        delta := 0 }

/-- Modelled from the spec: the deviation records of one attempt, one per
submitted sample (spec §4.2-§4.3). -/
def attemptRecords (ths : List MovementThreshold) (batch : List MetricSample) :
    List DeviationRecord :=
  batch.map (scoreSample ths)

/-- Modelled from the spec: attempt success (spec §4.3) — the attempt
succeeds iff every deviation record of the batch passed (AND semantics). -/
def attemptSuccess (ths : List MovementThreshold) (batch : List MetricSample) :
    Bool :=
  (attemptRecords ths batch).all (fun r => r.passed)

lemma scoreSample_of_none (ths : List MovementThreshold) (s : MetricSample)
    (h : findThreshold ths s.metric = none) :
    (scoreSample ths s).passed = true := by
  unfold scoreSample
  rw [h]

lemma scoreSample_of_some (ths : List MovementThreshold) (s : MetricSample)
    (th : MovementThreshold) (h : findThreshold ths s.metric = some th) :
    scoreSample ths s = evalDeviation th s := by
  unfold scoreSample
  rw [h]

/-- C3: an attempt succeeds iff every sample whose metric has a matching
threshold evaluates to `passed = true`, and inserting a sample with no
matching threshold anywhere in the batch never changes the attempt's
success value. -/
theorem attempt_success_correct :
    (∀ (ths : List MovementThreshold) (batch : List MetricSample),
      attemptSuccess ths batch = true ↔
        ∀ s ∈ batch, ∀ th : MovementThreshold,
          findThreshold ths s.metric = some th → (evalDeviation th s).passed = true)
    ∧ (∀ (ths : List MovementThreshold) (pre post : List MetricSample)
        (s : MetricSample), findThreshold ths s.metric = none →
        attemptSuccess ths (pre ++ s :: post) = attemptSuccess ths (pre ++ post)) := by
  constructor
  · intro ths batch
    simp only [attemptSuccess, attemptRecords, List.all_eq_true, List.mem_map,
      forall_exists_index, and_imp, forall_apply_eq_imp_iff₂]
    constructor
    · intro h s hs th hth
      have hp := h s hs
      rw [scoreSample_of_some ths s th hth] at hp
      exact hp
    · intro h s hs
      cases hfind : findThreshold ths s.metric with
      | none => exact scoreSample_of_none ths s hfind
      | some th =>
          rw [scoreSample_of_some ths s th hfind]
          exact h s hs th hfind
  · intro ths pre post s h
    simp only [attemptSuccess, attemptRecords, List.map_append, List.map_cons,
      List.all_append, List.all_cons, scoreSample_of_none ths s h,
      Bool.true_and]

/-- An example threshold list with a single `gte` threshold, used to
instantiate the attempt-scoring theorem. -/
def exampleThresholds : List MovementThreshold := [gteExampleThreshold]

/-- An example sample whose metric matches no threshold in
`exampleThresholds`. -/
def unmatchedSample : MetricSample :=
  { metric := "chin_tuck", actual_value := 10, unit := "deg" }

/-- Witness for C3: inserting the threshold-less sample into an empty batch
leaves the attempt's success unchanged. -/
theorem attempt_success_correct_witness :
    attemptSuccess exampleThresholds ([] ++ unmatchedSample :: []) =
      attemptSuccess exampleThresholds ([] ++ []) :=
  attempt_success_correct.2 exampleThresholds [] [] unmatchedSample rfl

/-- A progress event as consumed by `PatientProgress` (App.tsx lines
267-299) and `fetchPrescriptions` (main.dart lines 50-74): the fields the
code reads are `exercise_id` and `success`; `timestamp` orders the
append-only log. -/
structure ProgressEvent where
  exercise_id : String
  success : Bool
  timestamp : Nat
deriving DecidableEq, Repr

/-- The per-exercise counters of `PatientProgress` (App.tsx lines 277-285):
`success` and `total`, both initialised to 0 on first access. -/
structure ProgressStats where
  success : Nat
  total : Nat
deriving DecidableEq, Repr

/-- One iteration of the `forEach` fold in `PatientProgress`:
`stats.total += 1; if (event.success) stats.success += 1`. -/
def recordEvent (stats : ProgressStats) (success : Bool) : ProgressStats :=
  { success := stats.success + (if success then 1 else 0)
    total := stats.total + 1 }

/-- One event of the grouped fold in `PatientProgress`: the counters of the
event's `exercise_id` key are updated, all other keys are untouched. -/
def progressStep (grouped : String → ProgressStats) (e : ProgressEvent) :
    String → ProgressStats :=
  fun key =>
    if key = e.exercise_id then recordEvent (grouped key) e.success
    else grouped key

/-- The grouped summaries computed by `PatientProgress` (App.tsx lines
277-285), as a total map from exercise id to counters; keys the fold never
touches keep the zero counters the code would create on first access. -/
def progressSummaries (events : List ProgressEvent) : String → ProgressStats :=
  events.foldl progressStep (fun _ => { success := 0, total := 0 })

lemma foldl_progressStep :
    ∀ (events : List ProgressEvent) (g : String → ProgressStats) (key : String),
    (events.foldl progressStep g) key =
      { success := (g key).success +
          events.countP (fun e => e.exercise_id == key && e.success)
        total := (g key).total + events.countP (fun e => e.exercise_id == key) }
  | [], g, key => by simp
  | e :: rest, g, key => by
      rw [List.foldl_cons, foldl_progressStep rest _ key, List.countP_cons,
        List.countP_cons]
      simp only [progressStep, recordEvent]
      by_cases hkey : key = e.exercise_id
      · have hbeq : (e.exercise_id == key) = true := by simp [hkey]
        cases hsucc : e.success <;>
          simp [hkey, hbeq, hsucc, ProgressStats.mk.injEq] <;> omega
      · have hbeq : (e.exercise_id == key) = false := by
          simp only [beq_eq_false_iff_ne, ne_eq]
          exact fun hco => hkey hco.symm
        simp [if_neg hkey, hbeq]

/-- C4: for a (patient, exercise) list of progress events, the grouped fold
of `PatientProgress` yields `total` (attempts) equal to the number of events
and `success` (successes) equal to the number of events with
`success = true`. -/
theorem adherence_counts_correct (events : List ProgressEvent) (ex : String)
    (h : ∀ e ∈ events, e.exercise_id = ex) :
    (progressSummaries events ex).total = events.length
    ∧ (progressSummaries events ex).success =
        events.countP (fun e => e.success) := by
  unfold progressSummaries
  rw [foldl_progressStep]
  constructor
  · simp only [Nat.zero_add]
    exact List.countP_eq_length.mpr (fun e he => by simp [h e he])
  · simp only [Nat.zero_add]
    exact List.countP_congr (fun e he => by simp [h e he])

/-- Three example progress events for one exercise, two of them
successful. -/
def exampleEvents : List ProgressEvent :=
  [{ exercise_id := "ex1", success := true, timestamp := 0 },
   { exercise_id := "ex1", success := false, timestamp := 1 },
   { exercise_id := "ex1", success := true, timestamp := 2 }]

/-- Witness for C4: the theorem applied to the three example events. -/
theorem adherence_counts_correct_witness :
    (progressSummaries exampleEvents "ex1").total = exampleEvents.length
    ∧ (progressSummaries exampleEvents "ex1").success =
        exampleEvents.countP (fun e => e.success) :=
  adherence_counts_correct exampleEvents "ex1" (by decide)

/-- C5: the adherence aggregation is order-independent — permuting the event
list leaves every per-exercise counter pair unchanged. -/
theorem adherence_perm_invariant (l l' : List ProgressEvent)
    (hp : l.Perm l') (key : String) :
    progressSummaries l key = progressSummaries l' key := by
  unfold progressSummaries
  rw [foldl_progressStep, foldl_progressStep,
    List.Perm.countP_eq _ hp, List.Perm.countP_eq _ hp]

/-- Witness for C5: the theorem applied to a two-event list and its
transposition. -/
theorem adherence_perm_invariant_witness :
    progressSummaries
        [{ exercise_id := "ex1", success := true, timestamp := 0 },
         { exercise_id := "ex1", success := false, timestamp := 1 }] "ex1" =
      progressSummaries
        [{ exercise_id := "ex1", success := false, timestamp := 1 },
         { exercise_id := "ex1", success := true, timestamp := 0 }] "ex1" :=
  adherence_perm_invariant _ _
    (List.Perm.swap
      { exercise_id := "ex1", success := false, timestamp := 1 }
      { exercise_id := "ex1", success := true, timestamp := 0 } []) "ex1"

/-- The adherence summary of spec §3: `attempts` and `successes` counters per
(patient, exercise). -/
structure AdherenceSummary where
  attempts : Nat
  successes : Nat
deriving DecidableEq, Repr

/-- A prescription (spec §3): binds a patient to an exercise with a positive
repetition target. -/
structure Prescription where
  patient_id : String
  exercise_id : String
  repetitions_target : Nat
deriving DecidableEq, Repr

/-- One event of the adherence fold: count the attempt, and the success when
the event succeeded. -/
def adherenceStep (a : AdherenceSummary) (e : ProgressEvent) : AdherenceSummary :=
  { attempts := a.attempts + 1
    successes := a.successes + (if e.success then 1 else 0) }

/-- Modelled from the spec: the Adherence Aggregator (spec §4.4) of the
missing backend `doctor-portal/backend/main.py` — purely a fold over the
ProgressEvent log of one (patient, exercise) pair. -/
def adherenceSummary (log : List ProgressEvent) : AdherenceSummary :=
  log.foldl adherenceStep { attempts := 0, successes := 0 }

/-- Modelled from the spec: the derived boolean
`target_met = successes >= Prescription.repetitions_target` (spec §4.4),
computed by the missing backend. -/
def target_met (p : Prescription) (log : List ProgressEvent) : Bool :=
  decide ((adherenceSummary log).successes ≥ p.repetitions_target)

lemma foldl_adherenceStep :
    ∀ (log : List ProgressEvent) (a : AdherenceSummary),
    log.foldl adherenceStep a =
      { attempts := a.attempts + log.length
        successes := a.successes + log.countP (fun e => e.success) }
  | [], a => by simp
  | e :: rest, a => by
      rw [List.foldl_cons, foldl_adherenceStep rest _, List.countP_cons]
      simp only [adherenceStep, List.length_cons, AdherenceSummary.mk.injEq]
      cases hsucc : e.success <;> simp [hsucc] <;> omega

/-- C6: the adherence result derives `target_met` as
`successes ≥ repetitions_target`, where `successes` counts the successful
events of the (patient, exercise) log and `repetitions_target` is the
positive target stored on the prescription. -/
theorem target_met_correct (p : Prescription) (log : List ProgressEvent)
    (_hpos : 0 < p.repetitions_target) :
    (adherenceSummary log).attempts = log.length
    ∧ (adherenceSummary log).successes = log.countP (fun e => e.success)
    ∧ (target_met p log = true ↔
        p.repetitions_target ≤ log.countP (fun e => e.success)) := by
  unfold target_met adherenceSummary
  rw [foldl_adherenceStep]
  simp

/-- The prescription of the spec §8 adherence example:
`repetitions_target = 10`. -/
def examplePrescription : Prescription :=
  { patient_id := "123456-1234567", exercise_id := "ex1"
    repetitions_target := 10 }

/-- The log of the spec §8 adherence example: 9 attempts, 7 of them
successful. -/
def exampleLog : List ProgressEvent :=
  [{ exercise_id := "ex1", success := true, timestamp := 0 },
   { exercise_id := "ex1", success := true, timestamp := 1 },
   { exercise_id := "ex1", success := false, timestamp := 2 },
   { exercise_id := "ex1", success := true, timestamp := 3 },
   { exercise_id := "ex1", success := true, timestamp := 4 },
   { exercise_id := "ex1", success := true, timestamp := 5 },
   { exercise_id := "ex1", success := false, timestamp := 6 },
   { exercise_id := "ex1", success := true, timestamp := 7 },
   { exercise_id := "ex1", success := true, timestamp := 8 }]

/-- Witness for C6: on the spec §8 example (target 10, 9 attempts, 7
successes) the theorem applies and the target is not met. -/
theorem target_met_correct_witness :
    ((target_met examplePrescription exampleLog = true ↔
        examplePrescription.repetitions_target ≤
          exampleLog.countP (fun e => e.success))
      ∧ target_met examplePrescription exampleLog = false)
    ∧ (adherenceSummary exampleLog).attempts = 9
    ∧ (adherenceSummary exampleLog).successes = 7 :=
  ⟨⟨(target_met_correct examplePrescription exampleLog (by decide)).2.2,
    by decide⟩, by decide, by decide⟩

/-- A JavaScript number as relevant to threshold validation: a finite
rational, or a non-finite value (NaN or ±Infinity — `parseFloat("")` in
`ThresholdEditor` is NaN).  Validation only asks whether a number is finite;
an order comparison involving a non-finite candidate bound is treated as
failing. -/
inductive JsNum where
  | fin (q : ℚ)
  | nonfinite
deriving DecidableEq, Repr

/-- Finiteness test on a candidate number. -/
def JsNum.isFinite : JsNum → Bool
  | .fin _ => true
  | .nonfinite => false

/-- Ordering test used by validation: `a ≤ b` on finite values, false when
either side is non-finite. -/
def JsNum.jsLe : JsNum → JsNum → Bool
  | .fin a, .fin b => decide (a ≤ b)
  | _, _ => false

/-- A candidate threshold as edited in `ThresholdEditor` (App.tsx lines
32-123) before validation: the numeric fields come from `parseFloat` and may
be non-finite. -/
structure ThresholdCandidate where
  metric : String
  comparator : Comparator
  value : JsNum
  secondary_value : Option JsNum
  unit : String
  coaching_prompt : String
deriving DecidableEq, Repr

/-- Validation failure naming the offending field (spec §4.1 / §7). -/
structure InvalidThresholdError where
  field : String
deriving DecidableEq, Repr

/-- Modelled from the spec: Threshold Validation (spec §4.1), performed by
the missing backend `doctor-portal/backend/main.py`.  Rules, in the spec's
order: `metric` non-empty; `value` finite; if the comparator is `between`,
`secondary_value` present and `≥ value`; `coaching_prompt` non-empty.
Rejection names the offending field; acceptance stores the candidate's
fields unchanged (no coercion; the `secondary_value` a non-`between`
comparator ignores is not stored). -/
def validateThreshold (c : ThresholdCandidate) :
    Except InvalidThresholdError MovementThreshold :=
  if c.metric = "" then .error { field := "metric" }
  else
    match c.value with
    | .nonfinite => .error { field := "value" }
    | .fin v =>
      match c.comparator with
      | .between =>
        match c.secondary_value with
        | none => .error { field := "secondary_value" }
        | some .nonfinite => .error { field := "secondary_value" }
        | some (.fin sv) =>
          if sv < v then .error { field := "secondary_value" }
          else if c.coaching_prompt = "" then .error { field := "coaching_prompt" }
          else .ok { metric := c.metric, comparator := Comparator.between
                     value := v, secondary_value := some sv, unit := c.unit
                     coaching_prompt := c.coaching_prompt }
      | cmp =>
        if c.coaching_prompt = "" then .error { field := "coaching_prompt" }
        else .ok { metric := c.metric, comparator := cmp, value := v
                   secondary_value := none, unit := c.unit
                   coaching_prompt := c.coaching_prompt }


/-- C7: validation accepts a candidate iff `metric` is non-empty, `value` is
finite, `coaching_prompt` is non-empty and, for comparator `between`,
`secondary_value` is present with `secondary_value ≥ value`; every rejection
carries the name of an offending field, and acceptance stores the
candidate's fields unchanged (no silent coercion). -/
theorem validate_threshold_correct (c : ThresholdCandidate) :
    ((∃ t, validateThreshold c = .ok t) ↔
      (c.metric ≠ "" ∧ c.value.isFinite = true ∧ c.coaching_prompt ≠ ""
        ∧ (c.comparator = Comparator.between →
            ∃ sv, c.secondary_value = some sv ∧ c.value.jsLe sv = true)))
    ∧ (∀ err : InvalidThresholdError, validateThreshold c = .error err →
        (err.field = "metric" ∧ c.metric = "")
        ∨ (err.field = "value" ∧ c.value.isFinite = false)
        ∨ (err.field = "coaching_prompt" ∧ c.coaching_prompt = "")
        ∨ (err.field = "secondary_value" ∧ c.comparator = Comparator.between
            ∧ ¬ ∃ sv, c.secondary_value = some sv ∧ c.value.jsLe sv = true))
    ∧ (∀ t : MovementThreshold, validateThreshold c = .ok t →
        t.metric = c.metric ∧ t.comparator = c.comparator
        ∧ c.value = JsNum.fin t.value ∧ t.unit = c.unit
        ∧ t.coaching_prompt = c.coaching_prompt
        ∧ (c.comparator = Comparator.between →
            c.secondary_value = t.secondary_value.map JsNum.fin)) := by
  rcases c with ⟨metric, cmp, value, secondary, unit, prompt⟩
  by_cases hm : metric = ""
  · refine ⟨by simp [validateThreshold, hm], fun err herr => ?_, fun t ht => ?_⟩
    · simp only [validateThreshold, if_pos hm, Except.error.injEq] at herr
      subst herr
      exact Or.inl ⟨rfl, hm⟩
    · simp [validateThreshold, hm] at ht
  · cases value with
    | nonfinite =>
        refine ⟨by simp [validateThreshold, hm, JsNum.isFinite],
          fun err herr => ?_, fun t ht => ?_⟩
        · simp only [validateThreshold, if_neg hm, Except.error.injEq] at herr
          subst herr
          exact Or.inr (Or.inl ⟨rfl, rfl⟩)
        · simp [validateThreshold, hm] at ht
    | fin v =>
        cases cmp with
        | between =>
            cases secondary with
            | none =>
                refine ⟨by simp [validateThreshold, hm],
                  fun err herr => ?_, fun t ht => ?_⟩
                · simp only [validateThreshold, if_neg hm,
                    Except.error.injEq] at herr
                  subst herr
                  refine Or.inr (Or.inr (Or.inr ⟨rfl, rfl, ?_⟩))
                  rintro ⟨sv, hsv, -⟩
                  cases hsv
                · simp [validateThreshold, hm] at ht
            | some sv =>
                cases sv with
                | nonfinite =>
                    refine ⟨by simp [validateThreshold, hm, JsNum.jsLe],
                      fun err herr => ?_, fun t ht => ?_⟩
                    · simp only [validateThreshold, if_neg hm,
                        Except.error.injEq] at herr
                      subst herr
                      refine Or.inr (Or.inr (Or.inr ⟨rfl, rfl, ?_⟩))
                      rintro ⟨sv', hsv', hle⟩
                      cases hsv'
                      simp [JsNum.jsLe] at hle
                    · simp [validateThreshold, hm] at ht
                | fin svq =>
                    by_cases hord : svq < v
                    · refine ⟨?_, fun err herr => ?_, fun t ht => ?_⟩
                      · refine iff_of_false ?_ ?_
                        · rintro ⟨t, ht⟩
                          simp [validateThreshold, hm, if_pos hord] at ht
                        · rintro ⟨-, -, -, hbtw⟩
                          rcases hbtw rfl with ⟨sv', hsv', hle⟩
                          cases hsv'
                          simp [JsNum.jsLe] at hle
                          exact absurd hle (not_le.mpr hord)
                      · simp only [validateThreshold, if_neg hm, if_pos hord,
                          Except.error.injEq] at herr
                        subst herr
                        refine Or.inr (Or.inr (Or.inr ⟨rfl, rfl, ?_⟩))
                        rintro ⟨sv', hsv', hle⟩
                        cases hsv'
                        simp [JsNum.jsLe] at hle
                        exact absurd hle (not_le.mpr hord)
                      · simp [validateThreshold, hm, if_pos hord] at ht
                    · by_cases hcp : prompt = ""
                      · refine ⟨?_, fun err herr => ?_, fun t ht => ?_⟩
                        · refine iff_of_false ?_ ?_
                          · rintro ⟨t, ht⟩
                            simp [validateThreshold, hm, if_neg hord,
                              if_pos hcp] at ht
                          · rintro ⟨-, -, hpr, -⟩
                            exact hpr hcp
                        · simp only [validateThreshold, if_neg hm, if_neg hord,
                            if_pos hcp, Except.error.injEq] at herr
                          subst herr
                          exact Or.inr (Or.inr (Or.inl ⟨rfl, hcp⟩))
                        · simp [validateThreshold, hm, if_neg hord,
                            if_pos hcp] at ht
                      · refine ⟨?_, fun err herr => ?_, fun t ht => ?_⟩
                        · refine iff_of_true
                            ⟨{ metric := metric, comparator := Comparator.between
                               value := v, secondary_value := some svq
                               unit := unit, coaching_prompt := prompt }, ?_⟩
                            ⟨hm, rfl, hcp, fun _ => ⟨JsNum.fin svq, rfl, ?_⟩⟩
                          · simp [validateThreshold, hm, if_neg hord, if_neg hcp]
                          · simp [JsNum.jsLe, le_of_not_lt hord]
                        · simp [validateThreshold, hm, if_neg hord,
                            if_neg hcp] at herr
                        · simp only [validateThreshold, if_neg hm, if_neg hord,
                            if_neg hcp, Except.ok.injEq] at ht
                          subst ht
                          exact ⟨rfl, rfl, rfl, rfl, rfl, fun _ => rfl⟩
        | gte =>
            by_cases hcp : prompt = ""
            · refine ⟨?_, fun err herr => ?_, fun t ht => ?_⟩
              · refine iff_of_false ?_ ?_
                · rintro ⟨t, ht⟩
                  simp [validateThreshold, hm, if_pos hcp] at ht
                · rintro ⟨-, -, hpr, -⟩
                  exact hpr hcp
              · simp only [validateThreshold, if_neg hm, if_pos hcp,
                  Except.error.injEq] at herr
                subst herr
                exact Or.inr (Or.inr (Or.inl ⟨rfl, hcp⟩))
              · simp [validateThreshold, hm, if_pos hcp] at ht
            · refine ⟨?_, fun err herr => ?_, fun t ht => ?_⟩
              · refine iff_of_true
                  ⟨{ metric := metric, comparator := Comparator.gte
                     value := v, secondary_value := none
                     unit := unit, coaching_prompt := prompt }, ?_⟩
                  ⟨hm, rfl, hcp, fun hbtw => ?_⟩
                · simp [validateThreshold, hm, if_neg hcp]
                · cases hbtw
              · simp [validateThreshold, hm, if_neg hcp] at herr
              · simp only [validateThreshold, if_neg hm, if_neg hcp,
                  Except.ok.injEq] at ht
                subst ht
                exact ⟨rfl, rfl, rfl, rfl, rfl, fun hbtw => by cases hbtw⟩
        | lte =>
            by_cases hcp : prompt = ""
            · refine ⟨?_, fun err herr => ?_, fun t ht => ?_⟩
              · refine iff_of_false ?_ ?_
                · rintro ⟨t, ht⟩
                  simp [validateThreshold, hm, if_pos hcp] at ht
                · rintro ⟨-, -, hpr, -⟩
                  exact hpr hcp
              · simp only [validateThreshold, if_neg hm, if_pos hcp,
                  Except.error.injEq] at herr
                subst herr
                exact Or.inr (Or.inr (Or.inl ⟨rfl, hcp⟩))
              · simp [validateThreshold, hm, if_pos hcp] at ht
            · refine ⟨?_, fun err herr => ?_, fun t ht => ?_⟩
              · refine iff_of_true
                  ⟨{ metric := metric, comparator := Comparator.lte
                     value := v, secondary_value := none
                     unit := unit, coaching_prompt := prompt }, ?_⟩
                  ⟨hm, rfl, hcp, fun hbtw => ?_⟩
                · simp [validateThreshold, hm, if_neg hcp]
                · cases hbtw
              · simp [validateThreshold, hm, if_neg hcp] at herr
              · simp only [validateThreshold, if_neg hm, if_neg hcp,
                  Except.ok.injEq] at ht
                subst ht
                exact ⟨rfl, rfl, rfl, rfl, rfl, fun hbtw => by cases hbtw⟩

/-- A valid example candidate for threshold validation. -/
def validExampleCandidate : ThresholdCandidate :=
  { metric := "neck_rotation_left"
    comparator := Comparator.between
    value := JsNum.fin 20
    secondary_value := some (JsNum.fin 40)
    unit := "deg"
    coaching_prompt := "Keep within the range" }

/-- The threshold stored for `validExampleCandidate`. -/
def validExampleStored : MovementThreshold :=
  { metric := "neck_rotation_left"
    comparator := Comparator.between
    value := 20
    secondary_value := some 40
    unit := "deg"
    coaching_prompt := "Keep within the range" }

/-- Witness for C7: the theorem applied to the valid example candidate shows
its accepted threshold carries the candidate's fields unchanged. -/
theorem validate_threshold_correct_witness :
    validExampleStored.metric = validExampleCandidate.metric
    ∧ validExampleStored.comparator = validExampleCandidate.comparator
    ∧ validExampleCandidate.value = JsNum.fin validExampleStored.value
    ∧ validExampleStored.unit = validExampleCandidate.unit
    ∧ validExampleStored.coaching_prompt = validExampleCandidate.coaching_prompt
    ∧ (validExampleCandidate.comparator = Comparator.between →
        validExampleCandidate.secondary_value =
          validExampleStored.secondary_value.map JsNum.fin) :=
  (validate_threshold_correct validExampleCandidate).2.2 validExampleStored rfl

lemma evalDeviation_lte (th : MovementThreshold) (s : MetricSample)
    (hc : th.comparator = Comparator.lte) :
    evalDeviation th s =
      { metric := s.metric
        target := some th.value
        actual := s.actual_value
        passed := decide (s.actual_value ≤ th.value)
        coaching_prompt := some th.coaching_prompt
        delta := s.actual_value - th.value } := by
  unfold evalDeviation
  rw [hc]

/-- C8: the comparator domain is the closed three-value enumeration
{`gte`, `lte`, `between`} — no other value is representable — and deviation
evaluation dispatches exhaustively over exactly these three cases: every
threshold falls in one case and its record follows that case's rule. -/
theorem comparator_closed :
    (∀ c : Comparator,
      c = Comparator.gte ∨ c = Comparator.lte ∨ c = Comparator.between)
    ∧ (∀ th : MovementThreshold,
        th.comparator = Comparator.gte ∨ th.comparator = Comparator.lte ∨
          th.comparator = Comparator.between)
    ∧ (∀ (th : MovementThreshold) (s : MetricSample),
        (th.comparator = Comparator.gte ∧
          (evalDeviation th s).passed = decide (s.actual_value ≥ th.value))
        ∨ (th.comparator = Comparator.lte ∧
            (evalDeviation th s).passed = decide (s.actual_value ≤ th.value))
        ∨ (th.comparator = Comparator.between ∧
            (evalDeviation th s).passed =
              (decide (th.value ≤ s.actual_value) &&
                decide (s.actual_value ≤ th.secondary_value.getD th.value)))) := by
  refine ⟨fun c => ?_, fun th => ?_, fun th s => ?_⟩
  · cases c
    · exact Or.inl rfl
    · exact Or.inr (Or.inl rfl)
    · exact Or.inr (Or.inr rfl)
  · cases hc : th.comparator
    · exact Or.inl rfl
    · exact Or.inr (Or.inl rfl)
    · exact Or.inr (Or.inr rfl)
  · cases hc : th.comparator with
    | gte => exact Or.inl ⟨rfl, by rw [evalDeviation_gte th s hc]⟩
    | lte => exact Or.inr (Or.inl ⟨rfl, by rw [evalDeviation_lte th s hc]⟩)
    | between =>
        exact Or.inr (Or.inr ⟨rfl, by rw [evalDeviation_between th s hc]⟩)

/-- One entry of the coaching request (docs/threshold_guidance.md, the
`/ai/coach` prompt template): `{metric, target, actual, coaching_prompt}`. -/
structure CoachEntry where
  metric : String
  target : Option ℚ
  actual : ℚ
  coaching_prompt : Option String
deriving DecidableEq, Repr

/-- The assembled coaching payload: either an explicit all-targets-met
marker, or the ordered per-metric correction entries. -/
inductive CoachingPayload where
  | allTargetsMet
  | corrections (entries : List CoachEntry)
deriving DecidableEq, Repr

/-- Projection of a deviation record to its coaching entry. -/
def toCoachEntry (r : DeviationRecord) : CoachEntry :=
  { metric := r.metric
    target := r.target
    actual := r.actual
    coaching_prompt := r.coaching_prompt }

/-- Modelled from the spec: the Coaching Payload Assembler (spec §4.5),
implemented by the missing backend's `/ai/coach` endpoint: the failing
records, in order, become the per-metric entries; when every record passed
an explicit all-targets-met payload is returned instead of a bare empty
list. -/
def assembleCoachingPayload (records : List DeviationRecord) : CoachingPayload :=
  let failing := records.filter (fun r => !r.passed)
  if failing.isEmpty then CoachingPayload.allTargetsMet
  else CoachingPayload.corrections (failing.map toCoachEntry)

/-- C9: the assembler returns the all-targets-met marker iff every record
passed; otherwise it returns the entries of exactly the failing records, in
order, and that entry list is never empty. -/
theorem coaching_payload_correct (records : List DeviationRecord) :
    (assembleCoachingPayload records = CoachingPayload.allTargetsMet ↔
      ∀ r ∈ records, r.passed = true)
    ∧ (∀ l : List CoachEntry,
        assembleCoachingPayload records = CoachingPayload.corrections l →
          l = (records.filter (fun r => !r.passed)).map toCoachEntry ∧ l ≠ []) := by
  by_cases hemp : (records.filter (fun r => !r.passed)).isEmpty
  · constructor
    · simp only [assembleCoachingPayload, if_pos hemp, true_iff]
      rw [List.isEmpty_iff, List.filter_eq_nil_iff] at hemp
      intro r hr
      have := hemp r hr
      simpa using this
    · intro l hl
      simp [assembleCoachingPayload, hemp] at hl
  · constructor
    · simp only [assembleCoachingPayload, if_neg hemp]
      refine iff_of_false (by simp) ?_
      intro hall
      apply hemp
      rw [List.isEmpty_iff, List.filter_eq_nil_iff]
      intro r hr
      simp [hall r hr]
    · intro l hl
      simp only [assembleCoachingPayload, if_neg hemp,
        CoachingPayload.corrections.injEq] at hl
      subst hl
      refine ⟨rfl, ?_⟩
      simp only [ne_eq, List.map_eq_nil_iff]
      intro hnil
      exact hemp (by rw [hnil]; rfl)

/-- A single passing record, used to instantiate the payload theorem. -/
def passingExampleRecord : DeviationRecord :=
  { metric := "neck_rotation_left"
    target := some 60
    actual := 61
    passed := true
    coaching_prompt := some "Turn further left"
    delta := -1 }

/-- Witness for C9: on a batch whose only record passed, the theorem yields
the explicit all-targets-met payload. -/
theorem coaching_payload_correct_witness :
    assembleCoachingPayload [passingExampleRecord] =
      CoachingPayload.allTargetsMet :=
  (coaching_payload_correct [passingExampleRecord]).1.mpr
    (by intro r hr; simp only [List.mem_singleton] at hr; rw [hr]; rfl)

/-- The `ExerciseStep` type of App.tsx (lines 13-20). -/
structure ExerciseStep where
  index : Nat
  title : String
  description : String
  video_url : Option String
  avatar_style : String
  thresholds : List MovementThreshold
deriving DecidableEq, Repr

/-- The `Exercise` type of App.tsx (lines 22-28). -/
structure Exercise where
  id : String
  symptom : String
  title : String
  description : String
  steps : List ExerciseStep
deriving DecidableEq, Repr

/-- The initial `ExerciseForm` state (App.tsx lines 126-140): a single step
with index 0. -/
def initialExercise : Exercise :=
  { id := ""
    symptom := "jaw_pain"
    title := ""
    description := ""
    steps := [{ index := 0
                title := "자세 정렬"
                description := "의사의 안내에 따라 준비 자세를 취합니다."
                video_url := none
                avatar_style := "real"
                thresholds := [] }] }

/-- The `addStep` handler (App.tsx lines 149-164): appends a new step whose
`index` is the prior length of the steps array. -/
def addStep (e : Exercise) : Exercise :=
  { e with
    steps := e.steps ++
      [{ index := e.steps.length
         title := "새 단계"
         description := "단계 설명"
         video_url := none
         avatar_style := "avatar:male-30s"
         thresholds := [] }] }

/-- The post-submit reset of the `submit` handler (App.tsx lines 166-176):
clears id/title/description and re-maps each step's `index` to its array
position. -/
def submitReset (e : Exercise) : Exercise :=
  { e with
    id := ""
    title := ""
    description := ""
    steps := e.steps.mapIdx (fun i step => { step with index := i }) }

/-- The step-index invariant of the exercise-authoring form: every step's
`index` field equals its position in the steps array. -/
def indexAligned (steps : List ExerciseStep) : Prop :=
  ∀ (i : Nat) (h : i < steps.length), (steps.get ⟨i, h⟩).index = i

instance (steps : List ExerciseStep) : Decidable (indexAligned steps) :=
  Nat.decidableBallLT steps.length (fun i h => (steps.get ⟨i, h⟩).index = i)

/-- C10: the index invariant holds after every form operation — the initial
state has a single step with index 0, `addStep` appends a step whose index
equals the prior array length (preserving the invariant), and the
post-submit reset re-establishes the invariant unconditionally. -/
theorem step_index_invariant :
    indexAligned initialExercise.steps
    ∧ (∀ e : Exercise, ∃ st : ExerciseStep,
        (addStep e).steps = e.steps ++ [st] ∧ st.index = e.steps.length)
    ∧ (∀ e : Exercise, indexAligned e.steps → indexAligned (addStep e).steps)
    ∧ (∀ e : Exercise, indexAligned (submitReset e).steps) := by
  refine ⟨by decide, fun e => ⟨_, rfl, rfl⟩, fun e he i h => ?_, fun e i h => ?_⟩
  · rw [List.get_eq_getElem]
    by_cases hi : i < e.steps.length
    · have hrw : (addStep e).steps[i] = e.steps[i] :=
        List.getElem_append_left hi
      rw [hrw]
      have := he i hi
      rwa [List.get_eq_getElem] at this
    · have hlen : i = e.steps.length := by
        have : i < e.steps.length + 1 := by
          simpa [addStep] using h
        omega
      have hrw : (addStep e).steps[i] =
          { index := e.steps.length
            title := "새 단계"
            description := "단계 설명"
            video_url := none
            avatar_style := "avatar:male-30s"
            thresholds := [] } :=
        List.getElem_concat_length e.steps
          { index := e.steps.length
            title := "새 단계"
            description := "단계 설명"
            video_url := none
            avatar_style := "avatar:male-30s"
            thresholds := [] } i hlen (by simpa [addStep] using h)
      rw [hrw]
      exact hlen.symm
  · rw [List.get_eq_getElem]
    have hlen : i < e.steps.length := by
      simpa [submitReset] using h
    have hrw : (submitReset e).steps[i] =
        { e.steps[i] with index := i } := by
      simp [submitReset, List.getElem_mapIdx]
    rw [hrw]

/-- Witness for C10: the invariant-preservation clause of the theorem applied
to the initial form state. -/
theorem step_index_invariant_witness :
    indexAligned (addStep initialExercise).steps :=
  step_index_invariant.2.2.1 initialExercise (by decide)
